import Mathlib

/-!
Shallow embedding of the `resave` middleware generator
(`lib/resave.js`) and proofs of its specification's claims.

The middleware's observable behaviour is modelled as a trace of events:
each call to an external capability (the user-supplied `createBundle`
function, `fs.promises.writeFile`, the `log.info` / `log.error` sinks,
`response.set` / `response.send`, and the continuation `next`) is recorded
as an `Event`, in the order the code performs them.  The results of those
external calls (success or thrown error) are supplied as an environment
(`Behaviors`), so every control path of the source is representable.
-/

namespace Resave

/-- A JavaScript error value; only its identity and its `stack` string are
observable in the middleware (the stack is interpolated into log messages,
the error itself is handed to `next`). -/
structure JsError where
  stack : String
deriving DecidableEq, Repr

/-- Collapse runs of consecutive slashes into a single slash. -/
def collapseSlashes : List Char → List Char
  | [] => []
  | [c] => [c]
  | a :: b :: rest =>
    if a = '/' ∧ b = '/' then collapseSlashes (b :: rest)
    else a :: collapseSlashes (b :: rest)

/-- Modelled from Node's `path.join` restricted to POSIX paths without
`.` / `..` segments, which is how the middleware uses it: the two segments
are joined with a separator and duplicate separators are collapsed. -/
def pathJoin (a b : String) : String :=
  if a = "" then b
  else if b = "" then a
  else String.mk (collapseSlashes (a ++ "/" ++ b).data)

/-- The path component of a URL: everything before the first `?` (query
string) or `#` (fragment).  This is the value Express exposes as
`request.path`, which is all the middleware reads from the request. -/
def pathComponent (s : String) : String :=
  String.mk (s.data.takeWhile fun c => c ≠ '?' ∧ c ≠ '#')

/-- An Express request, as far as the middleware can observe it. -/
structure Request where
  url : String
deriving DecidableEq, Repr

/-- Express's `request.path`: the path component of the request URL. -/
def Request.path (r : Request) : String :=
  pathComponent r.url

/-- Modelled from the npm `mime` library's `getType`: a MIME type looked
up from the path's file extension, `none` when the extension is unknown. -/
def mimeGetType (p : String) : Option String :=
  let ext := String.mk ((p.data.reverse.takeWhile fun c => c ≠ '.' ∧ c ≠ '/').reverse)
  if ext = "css" then some "text/css"
  else if ext = "js" then some "application/javascript"
  else if ext = "txt" then some "text/plain"
  else if ext = "html" then some "text/html"
  else if ext = "json" then some "application/json"
  else none

/-- The data part of a middleware configuration: `basePath`, the
`bundles` map (association list, first binding wins as in a JS object)
and `savePath` (`none` models JS `null`).  The `log` sinks and the
response object are effectful capabilities and live in `Behaviors`. -/
structure Options where
  basePath : String
  bundles : List (String × String)
  savePath : Option String
deriving DecidableEq, Repr

/-- JS property lookup `bundles[path]` on the bundles object:
`none` models `undefined`. -/
def bundleLookup : List (String × String) → String → Option String
  | [], _ => none
  | (k, v) :: rest, p => if k = p then some v else bundleLookup rest p

/-- The single argument object the code passes to `createBundle`:
`{options, requestPath, sourcePath, savePath}`. -/
structure BundleDetails where
  options : Options
  requestPath : String
  sourcePath : String
  savePath : Option String
deriving DecidableEq, Repr

/-- One observable external call made while handling a request. -/
inductive Event where
  | compileCall (details : BundleDetails)
  | logInfo (msg : String)
  | logError (msg : String)
  | fsWrite (path : String) (content : String)
  | setHeader (name : String) (value : Option String)
  | send (body : String)
  | nextOk
  | nextErr (e : JsError)
deriving DecidableEq, Repr

/-- Results of the external calls for one request: what `createBundle`
resolves or rejects with, what `writeFile` does, and whether each log
sink or response method throws.  `Except.error e` models a thrown /
rejected JS error. -/
structure Behaviors where
  compile : Except JsError String
  write : Except JsError Unit
  logInfo : String → Except JsError Unit
  logError : String → Except JsError Unit
  set : Except JsError Unit
  send : Except JsError Unit

/-- The usual environment: log sinks and response methods return
normally; only the compile result and the write result vary. -/
def mkBehaviors (compile : Except JsError String) (write : Except JsError Unit) :
    Behaviors :=
  { compile := compile, write := write,
    logInfo := fun _ => Except.ok (), logError := fun _ => Except.ok (),
    set := Except.ok (), send := Except.ok () }

def compiledMsg (p : String) : String :=
  "Bundle \"" ++ p ++ "\" compiled"

def failedCompileMsg (p : String) (e : JsError) : String :=
  "Bundle \"" ++ p ++ "\" failed to compile: " ++ e.stack

def savedMsg (p : String) : String :=
  "Bundle \"" ++ p ++ "\" saved"

def failedSaveMsg (p : String) (e : JsError) : String :=
  "Bundle \"" ++ p ++ "\" failed to save: " ++ e.stack

def servedMsg (p : String) : String :=
  "Bundle \"" ++ p ++ "\" served"

/-- Models a `catch` block of the form
`catch (e) { options.log.error(msg); throw original; }`:
the sink is invoked; if the sink itself throws, its error replaces the
original one (the `throw original` is never reached). -/
def rethrowWithLog (env : Behaviors) (msg : String) (original : JsError) :
    List Event × JsError :=
  match env.logError msg with
  | Except.error sinkError => ([Event.logError msg], sinkError)
  | Except.ok _ => ([Event.logError msg], original)

/-- The inner compile `try` block:
`bundleContent = await createBundle({...}); options.log.info(...)`
with its `catch` logging `failed to compile` and rethrowing.  Note that a
`log.info` sink that throws is caught by the same `catch`. -/
def compilePhase (env : Behaviors) (details : BundleDetails) :
    List Event × Except JsError String :=
  match env.compile with
  | Except.error bundleError =>
    let c := rethrowWithLog env (failedCompileMsg details.requestPath bundleError) bundleError
    (Event.compileCall details :: c.1, Except.error c.2)
  | Except.ok bundleContent =>
    match env.logInfo (compiledMsg details.requestPath) with
    | Except.error e =>
      let c := rethrowWithLog env (failedCompileMsg details.requestPath e) e
      ([Event.compileCall details, Event.logInfo (compiledMsg details.requestPath)] ++ c.1,
        Except.error c.2)
    | Except.ok _ =>
      ([Event.compileCall details, Event.logInfo (compiledMsg details.requestPath)],
        Except.ok bundleContent)

/-- The save block: skipped when `fullSavePath` is falsy, otherwise
`await writeFile(fullSavePath, bundleContent); options.log.info(...)`
with its `catch` logging `failed to save` and rethrowing. -/
def savePhase (env : Behaviors) (requestPath : String) (fullSavePath : Option String)
    (bundleContent : String) : List Event × Except JsError Unit :=
  match fullSavePath with
  | none => ([], Except.ok ())
  | some sp =>
    if sp = "" then ([], Except.ok ())
    else
      match env.write with
      | Except.error saveError =>
        let c := rethrowWithLog env (failedSaveMsg requestPath saveError) saveError
        (Event.fsWrite sp bundleContent :: c.1, Except.error c.2)
      | Except.ok _ =>
        match env.logInfo (savedMsg requestPath) with
        | Except.error e =>
          let c := rethrowWithLog env (failedSaveMsg requestPath e) e
          ([Event.fsWrite sp bundleContent, Event.logInfo (savedMsg requestPath)] ++ c.1,
            Except.error c.2)
        | Except.ok _ =>
          ([Event.fsWrite sp bundleContent, Event.logInfo (savedMsg requestPath)],
            Except.ok ())

/-- `serveBundle(response, requestPath, content)`:
`response.set('Content-Type', mime.getType(requestPath)); response.send(content)`. -/
def serveBundle (env : Behaviors) (requestPath : String) (content : String) :
    List Event × Except JsError Unit :=
  match env.set with
  | Except.error e =>
    ([Event.setHeader "Content-Type" (mimeGetType requestPath)], Except.error e)
  | Except.ok _ =>
    match env.send with
    | Except.error e =>
      ([Event.setHeader "Content-Type" (mimeGetType requestPath), Event.send content],
        Except.error e)
    | Except.ok _ =>
      ([Event.setHeader "Content-Type" (mimeGetType requestPath), Event.send content],
        Except.ok ())

/-- `fullSavePath`: `options.savePath ? path.join(options.savePath, request.path) : null`
(an empty-string `savePath` is falsy in JS). -/
def resolveSavePath (savePath : Option String) (requestPath : String) : Option String :=
  match savePath with
  | none => none
  | some s => if s = "" then none else some (pathJoin s requestPath)

/-- The body of the outer `try` of the middleware, returning its trace of
external calls and either normal completion or the error it throws. -/
def middlewareBody (env : Behaviors) (options : Options) (requestPath : String) :
    List Event × Except JsError Unit :=
  match bundleLookup options.bundles requestPath with
  | none => ([Event.nextOk], Except.ok ())
  | some sourcePath =>
    if sourcePath = "" then ([Event.nextOk], Except.ok ())
    else
      let fullSourcePath := pathJoin options.basePath sourcePath
      let fullSavePath := resolveSavePath options.savePath requestPath
      let details : BundleDetails :=
        { options := options, requestPath := requestPath,
          sourcePath := fullSourcePath, savePath := fullSavePath }
      match compilePhase env details with
      | (tr, Except.error e) => (tr, Except.error e)
      | (tr, Except.ok bundleContent) =>
        match savePhase env requestPath fullSavePath bundleContent with
        | (tr2, Except.error e) => (tr ++ tr2, Except.error e)
        | (tr2, Except.ok _) =>
          match env.logInfo (servedMsg requestPath) with
          | Except.error e =>
            (tr ++ tr2 ++ [Event.logInfo (servedMsg requestPath)], Except.error e)
          | Except.ok _ =>
            let sb := serveBundle env requestPath bundleContent
            (tr ++ tr2 ++ [Event.logInfo (servedMsg requestPath)] ++ sb.1, sb.2)

/-- The whole async middleware: the body runs inside
`try { ... } catch (error) { return next(error); }`, so any thrown error
becomes a `next(error)` call and the returned promise resolves.  The
continuation `next` itself is modelled as returning normally. -/
def middleware (env : Behaviors) (options : Options) (request : Request) :
    List Event × Except JsError Unit :=
  match middlewareBody env options request.path with
  | (tr, Except.ok _) => (tr, Except.ok ())
  | (tr, Except.error e) => (tr ++ [Event.nextErr e], Except.ok ())

/-- A JavaScript value stored in an options object, as far as
`applyDefaultOptions` can observe it: `Object.assign` copies values
without inspecting them, so values are opaque tagged data.  `vNull`
models `null`, `vLog` a `{error, info}` log object (each sink named by a
tag), `vMap` a bundles object, `vOther` any further caller-supplied
option value. -/
inductive JsValue where
  | vNull
  | vStr (s : String)
  | vLog (errTag infoTag : String)
  | vMap (entries : List (String × String))
  | vOther (tag : String)
deriving DecidableEq, Repr

/-- JS property read on an object (keys are unique in a JS object; on an
association list the first binding wins). -/
def getKey : List (String × JsValue) → String → Option JsValue
  | [], _ => none
  | (k, v) :: rest, q => if k = q then some v else getKey rest q

/-- JS property write: replace the first binding of the key, or append a
new binding when the key is absent. -/
def setKey : List (String × JsValue) → String → JsValue → List (String × JsValue)
  | [], k, v => [(k, v)]
  | (k0, v0) :: rest, k, v =>
    if k0 = k then (k, v) :: rest
    else (k0, v0) :: setKey rest k v

/-- Models `Object.assign(target, src)`: every own property of `src` is
written onto `target`, in order. -/
def objAssign (target src : List (String × JsValue)) : List (String × JsValue) :=
  src.foldl (fun acc kv => setKey acc kv.1 kv.2) target

/-- `module.exports.defaultOptions`: `basePath` is `process.cwd()`
(supplied as `cwd`), `bundles` is an empty map, `log` is a pair of no-op
sinks, `savePath` is `null`. -/
def defaultOptions (cwd : String) : List (String × JsValue) :=
  [("basePath", JsValue.vStr cwd),
   ("bundles", JsValue.vMap []),
   ("log", JsValue.vLog "noop" "noop"),
   ("savePath", JsValue.vNull)]

/-- `applyDefaultOptions(userOptions)`:
`Object.assign({}, module.exports.defaultOptions, userOptions)`. -/
def applyDefaultOptions (cwd : String) (userOptions : List (String × JsValue)) :
    List (String × JsValue) :=
  objAssign (objAssign [] (defaultOptions cwd)) userOptions

/-- A concrete configuration used to exercise the middleware. -/
def testOptions : Options :=
  { basePath := "/base", bundles := [("/foo.css", "foo.scss")], savePath := none }

/-- A concrete request for the bundle path of `testOptions`. -/
def testRequest : Request := { url := "/foo.css" }

/-- Filesystem-write events of a trace. -/
def writeEvents (tr : List Event) : List Event :=
  tr.filter fun e =>
    match e with
    | Event.fsWrite _ _ => true
    | _ => false

/-- Response events (header set, body send) of a trace. -/
def responseEvents (tr : List Event) : List Event :=
  tr.filter fun e =>
    match e with
    | Event.setHeader _ _ => true
    | Event.send _ => true
    | _ => false

/-- Continuation (`next`) calls of a trace. -/
def nextEvents (tr : List Event) : List Event :=
  tr.filter fun e =>
    match e with
    | Event.nextOk => true
    | Event.nextErr _ => true
    | _ => false

/-- Compile-function invocations of a trace. -/
def compileEvents (tr : List Event) : List Event :=
  tr.filter fun e =>
    match e with
    | Event.compileCall _ => true
    | _ => false

theorem takeWhile_append_stop {p : Char → Bool} {l1 l2 : List Char} {x : Char}
    (h1 : ∀ c ∈ l1, p c = true) (hx : p x = false) :
    (l1 ++ x :: l2).takeWhile p = l1 := by
  induction l1 with
  | nil => simp [List.takeWhile, hx]
  | cons a rest ih =>
    have ha : p a = true := h1 a (List.mem_cons_self a rest)
    have ih2 := ih fun c hc => h1 c (List.mem_cons_of_mem a hc)
    simp [List.takeWhile_cons, ha, ih2]

theorem takeWhile_all {p : Char → Bool} {l : List Char}
    (h : ∀ c ∈ l, p c = true) : l.takeWhile p = l := by
  induction l with
  | nil => rfl
  | cons a rest ih =>
    have ha : p a = true := h a (List.mem_cons_self a rest)
    have ih2 := ih fun c hc => h c (List.mem_cons_of_mem a hc)
    simp [List.takeWhile_cons, ha, ih2]

theorem getKey_setKey (obj : List (String × JsValue)) (k : String) (v : JsValue)
    (q : String) :
    getKey (setKey obj k v) q = if q = k then some v else getKey obj q := by
  induction obj with
  | nil =>
    by_cases hq : k = q
    · subst hq
      simp [setKey, getKey]
    · have hq2 : ¬(q = k) := fun h => hq h.symm
      simp [setKey, getKey, hq, hq2]
  | cons kv rest ih =>
    obtain ⟨k0, v0⟩ := kv
    by_cases h0 : k0 = k
    · subst h0
      by_cases hq : k0 = q
      · subst hq
        simp [setKey, getKey]
      · have hq2 : ¬(q = k0) := fun h => hq h.symm
        simp [setKey, getKey, hq, hq2]
    · by_cases hq : k0 = q
      · subst hq
        have hqk : ¬(k0 = k) := h0
        simp [setKey, getKey, hqk, fun h : k0 = k => hqk h]
      · simp [setKey, getKey, h0, hq, ih]

theorem getKey_eq_none_of_not_mem {obj : List (String × JsValue)} {q : String}
    (h : q ∉ obj.map Prod.fst) : getKey obj q = none := by
  induction obj with
  | nil => rfl
  | cons kv rest ih =>
    obtain ⟨k0, v0⟩ := kv
    simp only [List.map_cons, List.mem_cons, not_or] at h
    have h1 : ¬(k0 = q) := fun hk => h.1 hk.symm
    simp [getKey, h1, ih h.2]

theorem getKey_objAssign (d : List (String × JsValue)) (u : List (String × JsValue))
    (q : String) (hnodup : (u.map Prod.fst).Nodup) :
    getKey (objAssign d u) q =
      match getKey u q with
      | some v => some v
      | none => getKey d q := by
  induction u generalizing d with
  | nil => simp [objAssign, getKey]
  | cons kv rest ih =>
    obtain ⟨k0, v0⟩ := kv
    simp only [List.map_cons, List.nodup_cons] at hnodup
    have hstep : objAssign d ((k0, v0) :: rest) = objAssign (setKey d k0 v0) rest := rfl
    rw [hstep, ih (setKey d k0 v0) hnodup.2]
    by_cases hq : q = k0
    · subst hq
      have hrest : getKey rest q = none :=
        getKey_eq_none_of_not_mem hnodup.1
      simp [hrest, getKey, getKey_setKey]
    · have hne : ¬(k0 = q) := fun h => hq h.symm
      cases hr : getKey rest q with
      | some v => simp [getKey, hne, hr]
      | none => simp [getKey, hne, hr, getKey_setKey, hq]

theorem nextEvents_append (a b : List Event) :
    nextEvents (a ++ b) = nextEvents a ++ nextEvents b := by
  simp [nextEvents, List.filter_append]

theorem nextEvents_rethrowWithLog (env : Behaviors) (msg : String) (e : JsError) :
    nextEvents (rethrowWithLog env msg e).1 = [] := by
  unfold rethrowWithLog
  cases env.logError msg <;> simp [nextEvents]

theorem nextEvents_compilePhase (env : Behaviors) (d : BundleDetails) :
    nextEvents (compilePhase env d).1 = [] := by
  unfold compilePhase
  cases env.compile with
  | error e =>
    simpa [nextEvents] using nextEvents_rethrowWithLog env (failedCompileMsg d.requestPath e) e
  | ok c =>
    cases h : env.logInfo (compiledMsg d.requestPath) with
    | error e =>
      simpa [nextEvents, nextEvents_append] using
        nextEvents_rethrowWithLog env (failedCompileMsg d.requestPath e) e
    | ok u => simp [nextEvents]

theorem nextEvents_savePhase (env : Behaviors) (p : String) (sp : Option String)
    (c : String) : nextEvents (savePhase env p sp c).1 = [] := by
  unfold savePhase
  cases sp with
  | none => simp [nextEvents]
  | some s =>
    by_cases hs : s = ""
    · simp [hs, nextEvents]
    · simp only [hs, if_false]
      cases env.write with
      | error e =>
        simpa [nextEvents] using nextEvents_rethrowWithLog env (failedSaveMsg p e) e
      | ok u =>
        cases h : env.logInfo (savedMsg p) with
        | error e =>
          simpa [nextEvents, nextEvents_append] using
            nextEvents_rethrowWithLog env (failedSaveMsg p e) e
        | ok u2 => simp [nextEvents]

theorem nextEvents_serveBundle (env : Behaviors) (p : String) (c : String) :
    nextEvents (serveBundle env p c).1 = [] := by
  unfold serveBundle
  cases env.set <;> cases env.send <;> simp [nextEvents]

theorem collapseSlashes_ne_nil : ∀ (l : List Char), l ≠ [] → collapseSlashes l ≠ []
  | [], h => absurd rfl h
  | [c], _ => by simp [collapseSlashes]
  | a :: b :: rest, _ => by
    unfold collapseSlashes
    split
    · exact collapseSlashes_ne_nil (b :: rest) (by simp)
    · simp

theorem pathJoin_ne_empty (a b : String) (ha : a ≠ "") : pathJoin a b ≠ "" := by
  unfold pathJoin
  split
  · exact absurd (by assumption) ha
  · split
    · exact ha
    · intro hcontr
      have hdata := congrArg String.data hcontr
      simp only [String.data] at hdata
      refine collapseSlashes_ne_nil (a ++ "/" ++ b).data ?_ hdata
      intro hnil
      have := congrArg List.length hnil
      simp [String.data_append] at this

theorem middlewareBody_next_spec (env : Behaviors) (o : Options) (p : String) :
    middlewareBody env o p = ([Event.nextOk], Except.ok ())
    ∨ nextEvents (middlewareBody env o p).1 = [] := by
  cases hlk : bundleLookup o.bundles p with
  | none => exact Or.inl (by simp [middlewareBody, hlk])
  | some s =>
    by_cases hs : s = ""
    · exact Or.inl (by simp [middlewareBody, hlk, hs])
    · right
      cases hc : compilePhase env
          { options := o, requestPath := p,
            sourcePath := pathJoin o.basePath s,
            savePath := resolveSavePath o.savePath p } with
      | mk tr r =>
        have htr : nextEvents tr = [] := by
          have h := nextEvents_compilePhase env
            { options := o, requestPath := p,
              sourcePath := pathJoin o.basePath s,
              savePath := resolveSavePath o.savePath p }
          rw [hc] at h
          exact h
        cases r with
        | error e => simp [middlewareBody, hlk, hs, hc, htr]
        | ok bc =>
          cases hsv : savePhase env p (resolveSavePath o.savePath p) bc with
          | mk tr2 r2 =>
            have htr2 : nextEvents tr2 = [] := by
              have h := nextEvents_savePhase env p (resolveSavePath o.savePath p) bc
              rw [hsv] at h
              exact h
            cases r2 with
            | error e =>
              simp [middlewareBody, hlk, hs, hc, hsv, nextEvents_append, htr, htr2]
            | ok u =>
              have htr' := htr
              have htr2' := htr2
              simp only [nextEvents] at htr' htr2'
              cases hli : env.logInfo (servedMsg p) with
              | error e =>
                simp [middlewareBody, hlk, hs, hc, hsv, hli, nextEvents]
                exact ⟨by simpa using htr', by simpa using htr2'⟩
              | ok u2 =>
                have hsb := nextEvents_serveBundle env p bc
                simp only [nextEvents] at hsb
                simp [middlewareBody, hlk, hs, hc, hsv, hli, nextEvents]
                exact ⟨by simpa using htr', by simpa using htr2', by simpa using hsb⟩

/-- C1: for a request whose path is a key of `bundles` (with a truthy
source), when `createBundle` succeeds with content `C` and `savePath` is
absent, the handler sets the `Content-Type` header to the MIME type of
the request path, sends `C` as the body, performs no filesystem write,
and never calls `next`. -/
theorem c1_serve_without_save (o : Options) (req : Request) (s C : String)
    (hmatch : bundleLookup o.bundles req.path = some s) (hs : s ≠ "")
    (hsave : o.savePath = none) :
    responseEvents (middleware (mkBehaviors (Except.ok C) (Except.ok ())) o req).1 =
      [Event.setHeader "Content-Type" (mimeGetType req.path), Event.send C]
    ∧ writeEvents (middleware (mkBehaviors (Except.ok C) (Except.ok ())) o req).1 = []
    ∧ nextEvents (middleware (mkBehaviors (Except.ok C) (Except.ok ())) o req).1 = [] := by
  simp [middleware, middlewareBody, compilePhase, savePhase, serveBundle, resolveSavePath,
    mkBehaviors, hmatch, hs, hsave, responseEvents, writeEvents, nextEvents, List.filter]

theorem c1_witness :
    responseEvents (middleware (mkBehaviors (Except.ok "content") (Except.ok ()))
        testOptions testRequest).1 =
      [Event.setHeader "Content-Type" (mimeGetType testRequest.path), Event.send "content"]
    ∧ writeEvents (middleware (mkBehaviors (Except.ok "content") (Except.ok ()))
        testOptions testRequest).1 = []
    ∧ nextEvents (middleware (mkBehaviors (Except.ok "content") (Except.ok ()))
        testOptions testRequest).1 = [] :=
  c1_serve_without_save testOptions testRequest "foo.scss" "content" (by decide) (by decide) rfl

/-- C3: for a matched request, when `createBundle` fails with error `E`,
the handler logs `Bundle "<path>" failed to compile: <stack>`, calls
`next` exactly once with `E`, writes no response, attempts no
filesystem write (whatever the write behavior would have been), and its
promise resolves. -/
theorem c3_compile_failure (o : Options) (req : Request) (s : String) (E : JsError)
    (w : Except JsError Unit)
    (hmatch : bundleLookup o.bundles req.path = some s) (hs : s ≠ "") :
    nextEvents (middleware (mkBehaviors (Except.error E) w) o req).1 = [Event.nextErr E]
    ∧ responseEvents (middleware (mkBehaviors (Except.error E) w) o req).1 = []
    ∧ writeEvents (middleware (mkBehaviors (Except.error E) w) o req).1 = []
    ∧ Event.logError (failedCompileMsg req.path E) ∈
        (middleware (mkBehaviors (Except.error E) w) o req).1
    ∧ (middleware (mkBehaviors (Except.error E) w) o req).2 = Except.ok () := by
  simp [middleware, middlewareBody, compilePhase, rethrowWithLog, mkBehaviors,
    hmatch, hs, responseEvents, writeEvents, nextEvents, List.filter]

theorem c3_witness :
    nextEvents (middleware (mkBehaviors (Except.error { stack := "boom" }) (Except.ok ()))
        testOptions testRequest).1 = [Event.nextErr { stack := "boom" }]
    ∧ responseEvents (middleware (mkBehaviors (Except.error { stack := "boom" }) (Except.ok ()))
        testOptions testRequest).1 = []
    ∧ writeEvents (middleware (mkBehaviors (Except.error { stack := "boom" }) (Except.ok ()))
        testOptions testRequest).1 = []
    ∧ Event.logError (failedCompileMsg testRequest.path { stack := "boom" }) ∈
        (middleware (mkBehaviors (Except.error { stack := "boom" }) (Except.ok ()))
          testOptions testRequest).1
    ∧ (middleware (mkBehaviors (Except.error { stack := "boom" }) (Except.ok ()))
        testOptions testRequest).2 = Except.ok () :=
  c3_compile_failure testOptions testRequest "foo.scss" { stack := "boom" }
    (Except.ok ()) (by decide) (by decide)

/-- C4: for a matched request on which compilation succeeded but the
persistence write fails with error `E`, the handler logs
`Bundle "<path>" failed to save: <stack>`, calls `next` exactly once
with `E`, and writes no response. -/
theorem c4_save_failure (o : Options) (req : Request) (s S C : String) (E : JsError)
    (hmatch : bundleLookup o.bundles req.path = some s) (hs : s ≠ "")
    (hsave : o.savePath = some S) (hS : S ≠ "") :
    nextEvents (middleware (mkBehaviors (Except.ok C) (Except.error E)) o req).1 =
      [Event.nextErr E]
    ∧ responseEvents (middleware (mkBehaviors (Except.ok C) (Except.error E)) o req).1 = []
    ∧ Event.logError (failedSaveMsg req.path E) ∈
        (middleware (mkBehaviors (Except.ok C) (Except.error E)) o req).1
    ∧ (middleware (mkBehaviors (Except.ok C) (Except.error E)) o req).2 = Except.ok () := by
  have hsp : ¬(pathJoin S req.path = "") := pathJoin_ne_empty S req.path hS
  simp [middleware, middlewareBody, compilePhase, savePhase, rethrowWithLog, mkBehaviors,
    resolveSavePath, hmatch, hs, hsave, hS, hsp, responseEvents, nextEvents, List.filter]

theorem c4_witness :
    nextEvents (middleware (mkBehaviors (Except.ok "content") (Except.error { stack := "disk" }))
        { testOptions with savePath := some "/save" } testRequest).1 =
      [Event.nextErr { stack := "disk" }]
    ∧ responseEvents (middleware
        (mkBehaviors (Except.ok "content") (Except.error { stack := "disk" }))
        { testOptions with savePath := some "/save" } testRequest).1 = []
    ∧ Event.logError (failedSaveMsg testRequest.path { stack := "disk" }) ∈
        (middleware (mkBehaviors (Except.ok "content") (Except.error { stack := "disk" }))
          { testOptions with savePath := some "/save" } testRequest).1
    ∧ (middleware (mkBehaviors (Except.ok "content") (Except.error { stack := "disk" }))
        { testOptions with savePath := some "/save" } testRequest).2 = Except.ok () :=
  c4_save_failure { testOptions with savePath := some "/save" } testRequest
    "foo.scss" "/save" "content" { stack := "disk" } (by decide) (by decide) rfl (by decide)

/-- C5: for a request whose path is not a key of `bundles`, the handler
calls `next` exactly once with no error, never invokes `createBundle`,
writes no response, and performs no filesystem write — for every
environment behavior. -/
theorem c5_passthrough (env : Behaviors) (o : Options) (req : Request)
    (hmatch : bundleLookup o.bundles req.path = none) :
    middleware env o req = ([Event.nextOk], Except.ok ())
    ∧ nextEvents (middleware env o req).1 = [Event.nextOk]
    ∧ compileEvents (middleware env o req).1 = []
    ∧ responseEvents (middleware env o req).1 = []
    ∧ writeEvents (middleware env o req).1 = [] := by
  have h : middleware env o req = ([Event.nextOk], Except.ok ()) := by
    simp [middleware, middlewareBody, hmatch]
  refine ⟨h, ?_, ?_, ?_, ?_⟩ <;> rw [h] <;>
    simp [nextEvents, compileEvents, responseEvents, writeEvents]

theorem c5_witness :
    middleware (mkBehaviors (Except.ok "content") (Except.ok ()))
        testOptions { url := "/bar.css" } = ([Event.nextOk], Except.ok ())
    ∧ nextEvents (middleware (mkBehaviors (Except.ok "content") (Except.ok ()))
        testOptions { url := "/bar.css" }).1 = [Event.nextOk]
    ∧ compileEvents (middleware (mkBehaviors (Except.ok "content") (Except.ok ()))
        testOptions { url := "/bar.css" }).1 = []
    ∧ responseEvents (middleware (mkBehaviors (Except.ok "content") (Except.ok ()))
        testOptions { url := "/bar.css" }).1 = []
    ∧ writeEvents (middleware (mkBehaviors (Except.ok "content") (Except.ok ()))
        testOptions { url := "/bar.css" }).1 = [] :=
  c5_passthrough (mkBehaviors (Except.ok "content") (Except.ok ()))
    testOptions { url := "/bar.css" } (by decide)

/-- C9: for a request whose path is a key of `bundles` whose mapped
source value is the empty string (falsy in JS), the handler behaves
exactly as on an unmatched path: it calls `next` with no error and never
invokes `createBundle` — for every environment behavior. -/
theorem c9_falsy_source_passthrough (env : Behaviors) (o : Options) (req : Request)
    (hmatch : bundleLookup o.bundles req.path = some "") :
    middleware env o req = ([Event.nextOk], Except.ok ())
    ∧ compileEvents (middleware env o req).1 = []
    ∧ nextEvents (middleware env o req).1 = [Event.nextOk] := by
  have h : middleware env o req = ([Event.nextOk], Except.ok ()) := by
    simp [middleware, middlewareBody, hmatch]
  refine ⟨h, ?_, ?_⟩ <;> rw [h] <;> simp [compileEvents, nextEvents]

theorem c9_witness :
    middleware (mkBehaviors (Except.ok "content") (Except.ok ()))
        { basePath := "/base", bundles := [("/empty.css", "")], savePath := none }
        { url := "/empty.css" } = ([Event.nextOk], Except.ok ())
    ∧ compileEvents (middleware (mkBehaviors (Except.ok "content") (Except.ok ()))
        { basePath := "/base", bundles := [("/empty.css", "")], savePath := none }
        { url := "/empty.css" }).1 = []
    ∧ nextEvents (middleware (mkBehaviors (Except.ok "content") (Except.ok ()))
        { basePath := "/base", bundles := [("/empty.css", "")], savePath := none }
        { url := "/empty.css" }).1 = [Event.nextOk] :=
  c9_falsy_source_passthrough (mkBehaviors (Except.ok "content") (Except.ok ()))
    { basePath := "/base", bundles := [("/empty.css", "")], savePath := none }
    { url := "/empty.css" } (by decide)

/-- C6 counter-evidence: at the unit tests' own configuration and
request, the code invokes `createBundle` exactly once, but with a single
`bundleDetails` object `{options, requestPath, sourcePath, savePath}`
as its only argument — not in the two-positional-argument shape
`compileFn(sourcePath, config)` that the README, the example and the
unit tests specify.  The resolved source path inside the object is
`join(basePath, bundles[path])` and the resolved configuration is
carried in its `options` field. -/
theorem c6_compile_invoked_with_details_object :
    compileEvents (middleware (mkBehaviors (Except.ok "mock-bundle-content") (Except.ok ()))
        { basePath := "/base/path",
          bundles := [("/mock-bundle.css", "/source/mock-bundle.scss")],
          savePath := none }
        { url := "/mock-bundle.css" }).1 =
      [Event.compileCall
        { options :=
            { basePath := "/base/path",
              bundles := [("/mock-bundle.css", "/source/mock-bundle.scss")],
              savePath := none },
          requestPath := "/mock-bundle.css",
          sourcePath := "/base/path/source/mock-bundle.scss",
          savePath := none }] := by
  decide

/-- C2: for a matched request with `savePath` = `S`, when compilation
succeeds with content `C`, exactly one filesystem write occurs, to
`join(S, path)` with content `C`; it precedes all response events; the
response (header and body) is identical to the no-savePath case; and
`next` is never called. -/
theorem c2_save_then_serve (o : Options) (req : Request) (s S C : String)
    (hmatch : bundleLookup o.bundles req.path = some s) (hs : s ≠ "")
    (hsave : o.savePath = some S) (hS : S ≠ "") :
    writeEvents (middleware (mkBehaviors (Except.ok C) (Except.ok ())) o req).1 =
      [Event.fsWrite (pathJoin S req.path) C]
    ∧ (∃ pre post,
        (middleware (mkBehaviors (Except.ok C) (Except.ok ())) o req).1 = pre ++ post
        ∧ writeEvents pre = [Event.fsWrite (pathJoin S req.path) C]
        ∧ responseEvents pre = []
        ∧ writeEvents post = []
        ∧ responseEvents post =
            [Event.setHeader "Content-Type" (mimeGetType req.path), Event.send C])
    ∧ responseEvents (middleware (mkBehaviors (Except.ok C) (Except.ok ())) o req).1 =
        [Event.setHeader "Content-Type" (mimeGetType req.path), Event.send C]
    ∧ responseEvents (middleware (mkBehaviors (Except.ok C) (Except.ok ()))
          { o with savePath := none } req).1 =
        [Event.setHeader "Content-Type" (mimeGetType req.path), Event.send C]
    ∧ nextEvents (middleware (mkBehaviors (Except.ok C) (Except.ok ())) o req).1 = [] := by
  have hsp : ¬(pathJoin S req.path = "") := pathJoin_ne_empty S req.path hS
  have htr : (middleware (mkBehaviors (Except.ok C) (Except.ok ())) o req).1 =
      [Event.compileCall
          { options := o, requestPath := req.path,
            sourcePath := pathJoin o.basePath s,
            savePath := some (pathJoin S req.path) },
        Event.logInfo (compiledMsg req.path),
        Event.fsWrite (pathJoin S req.path) C,
        Event.logInfo (savedMsg req.path),
        Event.logInfo (servedMsg req.path),
        Event.setHeader "Content-Type" (mimeGetType req.path),
        Event.send C] := by
    simp [middleware, middlewareBody, compilePhase, savePhase, serveBundle,
      resolveSavePath, mkBehaviors, hmatch, hs, hsave, hS, hsp]
  have htr2 : (middleware (mkBehaviors (Except.ok C) (Except.ok ()))
        { o with savePath := none } req).1 =
      [Event.compileCall
          { options := { o with savePath := none }, requestPath := req.path,
            sourcePath := pathJoin o.basePath s, savePath := none },
        Event.logInfo (compiledMsg req.path),
        Event.logInfo (servedMsg req.path),
        Event.setHeader "Content-Type" (mimeGetType req.path),
        Event.send C] := by
    simp [middleware, middlewareBody, compilePhase, savePhase, serveBundle,
      resolveSavePath, mkBehaviors, hmatch, hs]
  refine ⟨?_, ⟨[Event.compileCall
          { options := o, requestPath := req.path,
            sourcePath := pathJoin o.basePath s,
            savePath := some (pathJoin S req.path) },
        Event.logInfo (compiledMsg req.path),
        Event.fsWrite (pathJoin S req.path) C,
        Event.logInfo (savedMsg req.path),
        Event.logInfo (servedMsg req.path)],
      [Event.setHeader "Content-Type" (mimeGetType req.path), Event.send C],
      by rw [htr]; rfl, ?_, ?_, ?_, ?_⟩, ?_, ?_, ?_⟩
  · rw [htr]
    simp [writeEvents, List.filter]
  · simp [writeEvents, List.filter]
  · simp [responseEvents, List.filter]
  · simp [writeEvents, List.filter]
  · simp [responseEvents, List.filter]
  · rw [htr]
    simp [responseEvents, List.filter]
  · rw [htr2]
    simp [responseEvents, List.filter]
  · rw [htr]
    simp [nextEvents, List.filter]

theorem c2_witness :
    writeEvents (middleware (mkBehaviors (Except.ok "content") (Except.ok ()))
        { testOptions with savePath := some "/save" } testRequest).1 =
      [Event.fsWrite (pathJoin "/save" testRequest.path) "content"]
    ∧ (∃ pre post,
        (middleware (mkBehaviors (Except.ok "content") (Except.ok ()))
          { testOptions with savePath := some "/save" } testRequest).1 = pre ++ post
        ∧ writeEvents pre = [Event.fsWrite (pathJoin "/save" testRequest.path) "content"]
        ∧ responseEvents pre = []
        ∧ writeEvents post = []
        ∧ responseEvents post =
            [Event.setHeader "Content-Type" (mimeGetType testRequest.path),
              Event.send "content"])
    ∧ responseEvents (middleware (mkBehaviors (Except.ok "content") (Except.ok ()))
        { testOptions with savePath := some "/save" } testRequest).1 =
        [Event.setHeader "Content-Type" (mimeGetType testRequest.path),
          Event.send "content"]
    ∧ responseEvents (middleware (mkBehaviors (Except.ok "content") (Except.ok ()))
        { { testOptions with savePath := some "/save" } with savePath := none }
        testRequest).1 =
        [Event.setHeader "Content-Type" (mimeGetType testRequest.path),
          Event.send "content"]
    ∧ nextEvents (middleware (mkBehaviors (Except.ok "content") (Except.ok ()))
        { testOptions with savePath := some "/save" } testRequest).1 = [] :=
  c2_save_then_serve { testOptions with savePath := some "/save" } testRequest
    "foo.scss" "/save" "content" (by decide) (by decide) rfl (by decide)

/-- C7: `applyDefaultOptions` merges caller options over the defaults by
shallow override of top-level keys (`Object.assign({}, defaults, user)`):
every key the caller supplies wins as a whole unit (in particular `log`),
every other key keeps its default, and the defaults are
`basePath = cwd`, `bundles = {}`, `log` = no-op sinks, `savePath = null`. -/
theorem c7_configure_shallow_merge (cwd : String) (u : List (String × JsValue)) (q : String)
    (hnodup : (u.map Prod.fst).Nodup) :
    getKey (applyDefaultOptions cwd u) q =
      (match getKey u q with
       | some v => some v
       | none => getKey (defaultOptions cwd) q)
    ∧ getKey (defaultOptions cwd) "basePath" = some (JsValue.vStr cwd)
    ∧ getKey (defaultOptions cwd) "bundles" = some (JsValue.vMap [])
    ∧ getKey (defaultOptions cwd) "log" = some (JsValue.vLog "noop" "noop")
    ∧ getKey (defaultOptions cwd) "savePath" = some JsValue.vNull
    ∧ (∀ L, getKey u "log" = some L →
        getKey (applyDefaultOptions cwd u) "log" = some L) := by
  have hnil : objAssign [] (defaultOptions cwd) = defaultOptions cwd := rfl
  have hmain : ∀ r, getKey (applyDefaultOptions cwd u) r =
      (match getKey u r with
       | some v => some v
       | none => getKey (defaultOptions cwd) r) := by
    intro r
    unfold applyDefaultOptions
    rw [hnil]
    exact getKey_objAssign (defaultOptions cwd) u r hnodup
  refine ⟨hmain q, rfl, rfl, rfl, rfl, ?_⟩
  intro L hL
  have h := hmain "log"
  rw [hL] at h
  exact h

theorem c7_witness :
    getKey (applyDefaultOptions "/cwd"
        [("savePath", JsValue.vStr "/save"), ("log", JsValue.vLog "err" "info")]) "log" =
      some (JsValue.vLog "err" "info")
    ∧ getKey (applyDefaultOptions "/cwd"
        [("savePath", JsValue.vStr "/save"), ("log", JsValue.vLog "err" "info")])
        "basePath" = some (JsValue.vStr "/cwd") := by
  have h := c7_configure_shallow_merge "/cwd"
    [("savePath", JsValue.vStr "/save"), ("log", JsValue.vLog "err" "info")]
    "basePath" (by decide)
  refine ⟨h.2.2.2.2.2 (JsValue.vLog "err" "info") rfl, ?_⟩
  rw [h.1]
  rfl

/-- C8: matching uses only the request's path component: the query
string (and fragment) is stripped before the `bundles` lookup, so the
whole middleware behaves on `p ++ "?" ++ q` exactly as on `p` — in
particular `/foo.css?bar=baz` matches the bundle key `/foo.css`. -/
theorem c8_match_uses_path_component (env : Behaviors) (o : Options) (p q : String)
    (hp : ∀ c ∈ p.data, c ≠ '?' ∧ c ≠ '#') :
    Request.path { url := p ++ "?" ++ q } = p
    ∧ middleware env o { url := p ++ "?" ++ q } = middleware env o { url := p } := by
  have hp' : ∀ c ∈ p.data, (decide (c ≠ '?' ∧ c ≠ '#')) = true := by
    intro c hc
    simpa using hp c hc
  have hdata : (p ++ "?" ++ q).data = p.data ++ '?' :: q.data := by
    rw [String.data_append, String.data_append]
    show (p.data ++ ['?']) ++ q.data = p.data ++ '?' :: q.data
    rw [List.append_assoc]
    rfl
  have h1 : Request.path { url := p ++ "?" ++ q } = p := by
    show pathComponent (p ++ "?" ++ q) = p
    unfold pathComponent
    rw [hdata, takeWhile_append_stop hp' (by decide)]
  have h2 : Request.path { url := p } = p := by
    show pathComponent p = p
    unfold pathComponent
    rw [takeWhile_all hp']
  constructor
  · exact h1
  · unfold middleware
    rw [h1, h2]

theorem c8_witness :
    Request.path { url := "/foo.css" ++ "?" ++ "bar=baz" } = "/foo.css"
    ∧ middleware (mkBehaviors (Except.ok "content") (Except.ok ())) testOptions
        { url := "/foo.css" ++ "?" ++ "bar=baz" } =
      middleware (mkBehaviors (Except.ok "content") (Except.ok ())) testOptions
        { url := "/foo.css" } :=
  c8_match_uses_path_component (mkBehaviors (Except.ok "content") (Except.ok ()))
    testOptions "/foo.css" "bar=baz" (by decide)

/-- C10: for every request and every behavior of the external calls
(compile result, write result, throwing log sinks, throwing response
methods), the handler's returned promise resolves — it never rejects —
`next` is called at most once, and whenever the body raises an error
`e`, `next` is called exactly once, with `e`. -/
theorem c10_errors_to_next (env : Behaviors) (o : Options) (req : Request) :
    (middleware env o req).2 = Except.ok ()
    ∧ (nextEvents (middleware env o req).1).length ≤ 1
    ∧ (∀ e, (middlewareBody env o req.path).2 = Except.error e →
        nextEvents (middleware env o req).1 = [Event.nextErr e]) := by
  cases hspec : middlewareBody env o req.path with
  | mk tr r =>
    cases r with
    | ok u =>
      have hm : middleware env o req = (tr, Except.ok ()) := by
        simp [middleware, hspec]
      have hnext : nextEvents tr = [Event.nextOk] ∨ nextEvents tr = [] := by
        rcases middlewareBody_next_spec env o req.path with hcase | hcase
        · rw [hspec] at hcase
          left
          have htr : tr = [Event.nextOk] := congrArg Prod.fst hcase
          rw [htr]
          simp [nextEvents]
        · rw [hspec] at hcase
          right
          exact hcase
      refine ⟨by rw [hm], ?_, ?_⟩
      · rw [hm]
        rcases hnext with h | h <;> simp [h]
      · intro e he
        exact absurd he (by simp)
    | error e0 =>
      have hm : middleware env o req = (tr ++ [Event.nextErr e0], Except.ok ()) := by
        simp [middleware, hspec]
      have htr : nextEvents tr = [] := by
        rcases middlewareBody_next_spec env o req.path with hcase | hcase
        · rw [hspec] at hcase
          exact absurd (congrArg Prod.snd hcase) (by simp)
        · rw [hspec] at hcase
          exact hcase
      refine ⟨by rw [hm], ?_, ?_⟩
      · rw [hm]
        show (nextEvents (tr ++ [Event.nextErr e0])).length ≤ 1
        rw [nextEvents_append, htr]
        simp [nextEvents]
      · intro e he
        have he0 : e0 = e := by simpa using he
        subst he0
        rw [hm]
        show nextEvents (tr ++ [Event.nextErr e0]) = [Event.nextErr e0]
        rw [nextEvents_append, htr]
        simp [nextEvents]

theorem c10_witness :
    (middleware (mkBehaviors (Except.error { stack := "x" }) (Except.ok ()))
        testOptions testRequest).2 = Except.ok ()
    ∧ nextEvents (middleware (mkBehaviors (Except.error { stack := "x" }) (Except.ok ()))
        testOptions testRequest).1 = [Event.nextErr { stack := "x" }] := by
  have h := c10_errors_to_next (mkBehaviors (Except.error { stack := "x" }) (Except.ok ()))
    testOptions testRequest
  exact ⟨h.1, h.2.2 { stack := "x" } rfl⟩

end Resave
